import Mathlib

/-!
Shallow embedding of the CommonGo repository (Go), for checking its
natural-language specification.

Modelled packages:
* `config`  — typed environment-variable getters (`config/config.go`).
* `httpx`   — JSON response envelopes (`httpx/render.go`) and the
              request-logging middleware.
* `logger`  — context-carried zerolog logger (`logger/logger.go`).
* `grpcx`   — gRPC severity classification, server construction and
              health registration.
* `postgres` — the `Open` pool factory, with the pgx library calls as oracles.

Go standard-library and third-party functions that the repository merely
calls (strconv, encoding/json, grpc, pgx) are modelled to the extent the
claims need them; `time.ParseDuration` is kept abstract (its fractional
part uses float64) and passed as a parameter.
-/

namespace CommonGo

/-! ## Environment model

`os.Getenv` returns the variable's value, or the empty string when the
variable is unset; it cannot distinguish an unset variable from one set
to the empty string.  We model the process environment as a partial map
so this collapse is visible. -/

/-- The process environment: `none` means the variable is unset. -/
def Env : Type := String → Option String

/-- Model of Go `os.Getenv`: the value, or `""` when unset. -/
def osGetenv (env : Env) (key : String) : String :=
  (env key).getD ""

/-! ## Models of the strconv parsers used by `config/config.go`

`strconv.Atoi` / `strconv.ParseInt(s, 10, 32)`: an optional single sign
followed by one or more decimal digits, rejecting values outside the
target integer range.  `strconv.ParseBool` accepts exactly the twelve
literal strings listed in its documentation. -/

/-- Decimal digits to a value: `none` unless the list is one or more
digits `0`-`9`. -/
def decDigits : List Char → Option Nat
  | [] => none
  | cs =>
    if cs.all (fun c => '0' ≤ c ∧ c ≤ '9') then
      some (cs.foldl (fun acc c => acc * 10 + (c.toNat - '0'.toNat)) 0)
    else
      none

/-- Model of `strconv.ParseInt(s, 10, bitSize)` restricted to the range
`[lo, hi]`: optional sign, then digits, then the range check.  Go
returns the clamped value together with `ErrRange` on overflow; the
callers in `config.go` only use the value when `err == nil`, so `none`
models every error. -/
def goParseIntRange (lo hi : Int) (s : String) : Option Int :=
  match s.toList with
  | [] => none
  | c :: rest =>
    let signDigits : Bool × List Char :=
      if c = '-' then (true, rest)
      else if c = '+' then (false, rest)
      else (false, c :: rest)
    match decDigits signDigits.2 with
    | none => none
    | some n =>
      let v : Int := if signDigits.1 then -(n : Int) else (n : Int)
      if lo ≤ v ∧ v ≤ hi then some v else none

/-- Model of `strconv.Atoi` (64-bit `int` on every platform the module
targets). -/
def goAtoi : String → Option Int :=
  goParseIntRange (-(2 ^ 63)) (2 ^ 63 - 1)

/-- Model of `strconv.ParseInt(value, 10, 32)`. -/
def goParseInt32 : String → Option Int :=
  goParseIntRange (-(2 ^ 31)) (2 ^ 31 - 1)

/-- Model of `strconv.ParseBool`. -/
def goParseBool (s : String) : Option Bool :=
  if s = "1" ∨ s = "t" ∨ s = "T" ∨ s = "TRUE" ∨ s = "true" ∨ s = "True" then
    some true
  else if s = "0" ∨ s = "f" ∨ s = "F" ∨ s = "FALSE" ∨ s = "false" ∨ s = "False" then
    some false
  else
    none

/-! ## `config` package: the typed getters (`config/config.go`) -/

/-- Model of `config.GetEnv`: the raw value when non-empty, else the default. -/
def GetEnv (env : Env) (key defaultValue : String) : String :=
  let value := osGetenv env key
  if value ≠ "" then value else defaultValue

/-- Model of `config.GetEnvInt`: `strconv.Atoi` on a non-empty value, falling
back to the default when unset, empty, or malformed. -/
def GetEnvInt (env : Env) (key : String) (defaultValue : Int) : Int :=
  let value := osGetenv env key
  if value ≠ "" then
    match goAtoi value with
    | some i => i
    | none => defaultValue
  else defaultValue

/-- Model of `config.GetEnvInt32`: `strconv.ParseInt(value, 10, 32)` on a
non-empty value, falling back to the default otherwise.  The Go code
casts the successful result with `int32(i)`, a no-op since `err == nil`
guarantees the 32-bit range. -/
def GetEnvInt32 (env : Env) (key : String) (defaultValue : Int) : Int :=
  let value := osGetenv env key
  if value ≠ "" then
    match goParseInt32 value with
    | some i => i
    | none => defaultValue
  else defaultValue

/-- Model of `config.GetEnvDuration`: `time.ParseDuration` on a non-empty value,
falling back to the default otherwise.  `time.ParseDuration` is Go
standard library (not repository code; its fraction handling uses
float64), so it is passed in as an abstract parser returning the
duration in nanoseconds. -/
def GetEnvDuration (parseDuration : String → Option Int) (env : Env)
    (key : String) (defaultValue : Int) : Int :=
  let value := osGetenv env key
  if value ≠ "" then
    match parseDuration value with
    | some d => d
    | none => defaultValue
  else defaultValue

/-- Model of `config.GetEnvBool`: `strconv.ParseBool` on a non-empty value,
falling back to the default otherwise. -/
def GetEnvBool (env : Env) (key : String) (defaultValue : Bool) : Bool :=
  let value := osGetenv env key
  if value ≠ "" then
    match goParseBool value with
    | some b => b
    | none => defaultValue
  else defaultValue

/-! ## zerolog model

The repository uses `github.com/rs/zerolog`.  We model a logger by its
writer presence, numeric level and accumulated fields; zerolog's levels
are Debug = 0, Info = 1, Warn = 2, Error = 3, ..., Disabled = 7.  An
event is emitted iff its severity level is at least the logger's level
(the process-wide global level is left at its permissive default). -/

/-- Severity of a log event, as used by the helpers under verification. -/
inductive Severity where
  | info
  | warn
  | error
  deriving DecidableEq, Repr

/-- zerolog's numeric level of each severity. -/
def Severity.level : Severity → Int
  | .info => 1
  | .warn => 2
  | .error => 3

/-- zerolog's `Disabled` level. -/
def disabledLevel : Int := 7

/-- Model of a `zerolog.Logger` value: whether its writer is non-nil,
its minimum level, and the fields accumulated via `With()`. -/
structure GoLogger where
  hasWriter : Bool
  level : Int
  fields : List (String × String)
  deriving DecidableEq, Repr

/-- The zero value of the `zerolog.Logger` struct (nil writer, level 0,
no context), which `reflect.ValueOf(opts.Logger).IsZero()` detects. -/
def zeroLogger : GoLogger := { hasWriter := false, level := 0, fields := [] }

/-- Model of `reflect.ValueOf(l).IsZero()` on a `zerolog.Logger`. -/
def GoLogger.isZero (l : GoLogger) : Bool := l = zeroLogger

/-- Model of `zerolog.Nop()`: `New(nil).Level(Disabled)`.  `zerolog.New`
substitutes a discard writer for nil, so the resulting struct is not the
zero value. -/
def zerologNop : GoLogger := { hasWriter := true, level := disabledLevel, fields := [] }

/-- Whether an event at severity `s` on logger `l` is written. -/
def GoLogger.emits (l : GoLogger) (s : Severity) : Bool := l.level ≤ s.level

/-- One structured log line. -/
structure LogRecord where
  sev : Severity
  fields : List (String × String)
  msg : String
  deriving DecidableEq, Repr

/-! ## `logger` package: context carrier (`logger/logger.go`)

Go contexts are chains of key/value pairs; `ctx.Value(k)` returns the
most recently attached value for `k`.  The `logger` package keys its
entry with the unexported `ctxKey{}`; other packages use other keys. -/

/-- Context keys: the `logger` package's private `ctxKey{}`, or any
other key. -/
inductive CtxKey where
  | loggerKey
  | otherKey (n : Nat)
  deriving DecidableEq, Repr

/-- Values storable in a context, as far as the model needs: a
`zerolog.Logger`, or anything else. -/
inductive CtxVal where
  | loggerVal (l : GoLogger)
  | otherVal (n : Nat)
  deriving DecidableEq, Repr

/-- A Go context: key/value pairs, most recently attached first. -/
def Context : Type := List (CtxKey × CtxVal)

/-- Model of `ctx.Value(key)`: the most recently attached value. -/
def ctxValue (ctx : Context) (key : CtxKey) : Option CtxVal :=
  match ctx.find? (fun p => p.1 = key) with
  | some p => some p.2
  | none => none

namespace logger

/-- Model of `logger.With`: attach the logger to the context under `ctxKey{}`. -/
def With (ctx : Context) (log : GoLogger) : Context :=
  (CtxKey.loggerKey, CtxVal.loggerVal log) :: ctx

/-- Model of `logger.From`: the logger stored under `ctxKey{}` if the type
assertion succeeds, else `zerolog.Nop()`. -/
def From (ctx : Context) : GoLogger :=
  match ctxValue ctx CtxKey.loggerKey with
  | some (CtxVal.loggerVal l) => l
  | _ => zerologNop

end logger

/-! ## `httpx` request-logging middleware (`httpx/middleware.go`)

A handler consumes the request together with the context the middleware
passed to it and yields the response status and bytes written (the
wrapped response writer's view).  The middleware's result records, next
to the handler's output, the log lines the middleware itself emitted and
the context it invoked the handler with. -/

/-- The parts of an `*http.Request` the middleware reads.  `reqID` is
what `chi`'s `middleware.GetReqID(r.Context())` yields (empty when the
request-ID middleware did not run). -/
structure HttpRequest where
  method : String
  path : String
  remoteAddr : String
  userAgent : String
  reqID : String
  deriving DecidableEq, Repr

/-- A handler: status code and bytes written, given the request and the
context it is served with. -/
def HttpHandler : Type := HttpRequest → Context → Int × Nat

/-- Outcome of one request through the logging middleware. -/
structure MwResult where
  status : Int
  bytes : Nat
  records : List LogRecord
  handlerCtx : Context

/-- The completion-severity choice shared by both middlewares:
`event := reqLog.Info(); if status >= 500 ... Error; else if status >=
400 ... Warn`. -/
def statusSeverity (status : Int) : Severity :=
  if status ≥ 500 then .error
  else if status ≥ 400 then .warn
  else .info

/-- The single completion record, when the per-request logger's level
admits the chosen severity. -/
def completionRecords (reqLog : GoLogger) (status : Int) (bytes : Nat) :
    List LogRecord :=
  let sev := statusSeverity status
  if reqLog.emits sev then
    [{ sev := sev
       fields := reqLog.fields ++ [("status", toString status), ("bytes", toString bytes)]
       msg := "request completed" }]
  else []

/-- Model of `httpx.RequestLogger`: derive a per-request logger, attach it to the
context, run the handler, emit one completion line whose severity
follows `statusSeverity`. -/
def RequestLogger (log : GoLogger) (next : HttpHandler)
    (r : HttpRequest) (ctx : Context) : MwResult :=
  let requestID := if r.reqID = "" then "unknown" else r.reqID
  let reqLog : GoLogger :=
    { log with
      fields := log.fields ++
        [("request_id", requestID), ("method", r.method),
         ("path", r.path), ("remote_addr", r.remoteAddr)] }
  let ctx' := logger.With ctx reqLog
  let out := next r ctx'
  { status := out.1, bytes := out.2
    records := completionRecords reqLog out.1 out.2
    handlerCtx := ctx' }

/-- Model of `httpx.RequestLoggerOptions` (body-logging flags are dead options in
the source: neither is read by `RequestLoggerWithOpts`). -/
structure RequestLoggerOptions where
  SkipPaths : List String
  LogRequestBody : Bool
  LogResponseBody : Bool

/-- Model of `httpx.RequestLoggerWithOpts`: skip-listed paths run the handler on
the unmodified request and log nothing; other paths behave like
`RequestLogger` with a `user_agent` field added. -/
def RequestLoggerWithOpts (log : GoLogger) (opts : RequestLoggerOptions)
    (next : HttpHandler) (r : HttpRequest) (ctx : Context) : MwResult :=
  if opts.SkipPaths.contains r.path then
    let out := next r ctx
    { status := out.1, bytes := out.2, records := [], handlerCtx := ctx }
  else
    let requestID := if r.reqID = "" then "unknown" else r.reqID
    let reqLog : GoLogger :=
      { log with
        fields := log.fields ++
          [("request_id", requestID), ("method", r.method),
           ("path", r.path), ("remote_addr", r.remoteAddr),
           ("user_agent", r.userAgent)] }
    let ctx' := logger.With ctx reqLog
    let out := next r ctx'
    { status := out.1, bytes := out.2
      records := completionRecords reqLog out.1 out.2
      handlerCtx := ctx' }

/-! ## `grpcx` package: severity classification and server construction -/

/-- gRPC status codes (`google.golang.org/grpc/codes`). -/
inductive GrpcCode where
  | ok
  | canceled
  | unknown
  | invalidArgument
  | deadlineExceeded
  | notFound
  | alreadyExists
  | permissionDenied
  | resourceExhausted
  | failedPrecondition
  | aborted
  | outOfRange
  | unimplemented
  | internal
  | unavailable
  | dataLoss
  | unauthenticated
  deriving DecidableEq, Repr

/-- Model of `codes.Code.String()`. -/
def GrpcCode.goString : GrpcCode → String
  | .ok => "OK"
  | .canceled => "Canceled"
  | .unknown => "Unknown"
  | .invalidArgument => "InvalidArgument"
  | .deadlineExceeded => "DeadlineExceeded"
  | .notFound => "NotFound"
  | .alreadyExists => "AlreadyExists"
  | .permissionDenied => "PermissionDenied"
  | .resourceExhausted => "ResourceExhausted"
  | .failedPrecondition => "FailedPrecondition"
  | .aborted => "Aborted"
  | .outOfRange => "OutOfRange"
  | .unimplemented => "Unimplemented"
  | .internal => "Internal"
  | .unavailable => "Unavailable"
  | .dataLoss => "DataLoss"
  | .unauthenticated => "Unauthenticated"

/-- Model of a `*zerolog.Event` as returned by `log.Info()` /
`log.Warn()` / `log.Error()`: the logger it came from and the chosen
severity. -/
structure GoEvent where
  logger : GoLogger
  sev : Severity
  deriving DecidableEq, Repr

/-- Model of `grpcx.eventForCode`: the severity switch of the logging
interceptors. -/
def eventForCode (log : GoLogger) (code : GrpcCode) : GoEvent :=
  if code = .ok then
    { logger := log, sev := .info }
  else if code = .canceled ∨ code = .deadlineExceeded then
    { logger := log, sev := .warn }
  else if code = .invalidArgument ∨ code = .notFound ∨ code = .alreadyExists ∨
      code = .permissionDenied ∨ code = .unauthenticated ∨ code = .failedPrecondition ∨
      code = .resourceExhausted ∨ code = .aborted ∨ code = .outOfRange then
    { logger := log, sev := .warn }
  else
    { logger := log, sev := .error }

/-- Model of `status.Code(err)`: `OK` for a nil error, else the error's
code. -/
def statusCode (err : Option GrpcCode) : GrpcCode :=
  err.getD .ok

/-- A unary handler's outcome: an opaque response plus an error,
abstracted to its gRPC status code (`nil` error = no code). -/
structure UnaryOutcome where
  resp : Nat
  err : Option GrpcCode

/-- Result of running one call through `grpcx.UnaryLoggingInterceptor`:
the handler's outcome passed through unchanged, the event built by
`eventForCode`, and the log line (emitted iff the logger's level admits
the event's severity). -/
structure InterceptResult where
  outcome : UnaryOutcome
  event : GoEvent
  records : List LogRecord

/-- Model of `grpcx.UnaryLoggingInterceptor` (the fields `grpc_method`,
`grpc_code`, `duration`, `request_id`, `peer_ip` are emitted on the one
line; duration and peer address are outside the model). -/
def UnaryLoggingInterceptor (log : GoLogger) (handler : Context → UnaryOutcome)
    (ctx : Context) (fullMethod : String) (requestID : String) : InterceptResult :=
  let out := handler ctx
  let code := statusCode out.err
  let ev := eventForCode log code
  { outcome := out
    event := ev
    records :=
      if log.emits ev.sev then
        [{ sev := ev.sev
           fields := log.fields ++
             [("grpc_method", fullMethod), ("grpc_code", code.goString),
              ("request_id", requestID)]
           msg := "grpc request" }]
      else [] }

/-- Standard gRPC health-check serving statuses. -/
inductive ServingStatus where
  | unknownStatus
  | serving
  | notServing
  deriving DecidableEq, Repr

/-- Model of `health.Server`: its status map. -/
structure HealthServer where
  statusMap : List (String × ServingStatus)
  deriving DecidableEq, Repr

/-- Model of `health.NewServer()` initialises the map with the empty service name
already `SERVING`. -/
def healthNewServer : HealthServer := { statusMap := [("", .serving)] }

/-- Model of `(*health.Server).SetServingStatus`. -/
def setServingStatus (hs : HealthServer) (service : String) (st : ServingStatus) :
    HealthServer :=
  { statusMap := (service, st) :: hs.statusMap.filter (fun p => p.1 ≠ service) }

/-- Status a health server reports for a service name. -/
def HealthServer.statusFor (hs : HealthServer) (service : String) :
    Option ServingStatus :=
  match hs.statusMap.find? (fun p => p.1 = service) with
  | some p => some p.2
  | none => none

/-- Model of a constructed `*grpc.Server`: the interceptor chain is
summarised by the logger the logging interceptors close over, plus the
registered optional services. -/
structure GrpcServer where
  interceptorLogger : GoLogger
  otelEnabled : Bool
  health : Option HealthServer
  reflectionRegistered : Bool
  deriving DecidableEq, Repr

/-- Model of `grpcx.RegisterHealth`: create a health server, register it, set the
empty service name to `SERVING`. -/
def RegisterHealth (s : GrpcServer) : GrpcServer × HealthServer :=
  let hs := healthNewServer
  let hs := setServingStatus hs "" .serving
  ({ s with health := some hs }, hs)

/-- Model of `grpcx.Options`. -/
structure Options where
  Logger : GoLogger
  EnableHealth : Bool
  EnableReflection : Bool
  EnableOTel : Bool

/-- Model of `grpcx.NewServer`: reject a zero-value logger with a configuration
error; otherwise build the server with chained logging interceptors and
the requested optional registrations.  The trailing `if s == nil` check
in the source is dead (`grpc.NewServer` never returns nil) and is
modelled by the construction being total. -/
def NewServer (opts : Options) : Except String GrpcServer :=
  if opts.Logger.isZero then
    .error "creating grpc server: Options.Logger must be set (use logger.New(...) or zerolog.Nop())"
  else
    let s : GrpcServer :=
      { interceptorLogger := opts.Logger
        otelEnabled := opts.EnableOTel
        health := none
        reflectionRegistered := false }
    let s := if opts.EnableHealth then (RegisterHealth s).1 else s
    let s := if opts.EnableReflection then { s with reflectionRegistered := true } else s
    .ok s

/-! ## JSON model (`encoding/json` on the envelope structs)

`httpx/render.go` serialises `Response` / `ErrorResponse` with
`json.NewEncoder(w).Encode(v)`.  We model JSON documents, Go's compact
encoding with its default HTML escaping, and the `omitempty` rules the
two structs use: an `interface{}` field is omitted iff the interface is
nil, a `string` field iff it is empty.  `Encode` appends a newline after
the document. -/

/-- JSON documents.  A Go `interface{}` payload is `Option Json`, with
`none` for the nil interface. -/
inductive Json where
  | null
  | bool (b : Bool)
  | num (n : Int)
  | str (s : String)
  | arr (elems : List Json)
  | obj (fields : List (String × Json))

/-- One hexadecimal digit, lower case (Go's `\u00XX` escapes). -/
def hexDigit (n : Nat) : Char :=
  if n < 10 then Char.ofNat ('0'.toNat + n)
  else Char.ofNat ('a'.toNat + (n - 10))

/-- Escape one character the way `encoding/json` does with HTML escaping
on (the `json.NewEncoder` default): quotes, backslash, the common
control shorthands, `<` `>` `&`, other control characters, and
U+2028/U+2029. -/
def escapeChar (c : Char) : String :=
  if c = '"' then "\\\""
  else if c = '\\' then "\\\\"
  else if c = '\n' then "\\n"
  else if c = '\r' then "\\r"
  else if c = '\t' then "\\t"
  else if c = '<' then "\\u003c"
  else if c = '>' then "\\u003e"
  else if c = '&' then "\\u0026"
  else if c.toNat < 0x20 then
    String.mk ['\\', 'u', '0', '0', hexDigit (c.toNat / 16), hexDigit (c.toNat % 16)]
  else if c.toNat = 0x2028 then "\\u2028"
  else if c.toNat = 0x2029 then "\\u2029"
  else String.mk [c]

/-- A JSON string literal for `s`. -/
def quoteString (s : String) : String :=
  "\"" ++ (s.toList.map escapeChar).foldl (· ++ ·) "" ++ "\""

mutual

/-- Go's compact JSON encoding of a document.  Object fields are
serialised in list order (struct-field order for the envelope structs;
Go sorts map keys, so a model of a map payload must list its fields
sorted). -/
def encodeJson : Json → String
  | .null => "null"
  | .bool true => "true"
  | .bool false => "false"
  | .num n => toString n
  | .str s => quoteString s
  | .arr elems => "[" ++ encodeElems elems ++ "]"
  | .obj fields => "\x7b" ++ encodeFields fields ++ "\x7d"

/-- Comma-separated encoding of array elements. -/
def encodeElems : List Json → String
  | [] => ""
  | [x] => encodeJson x
  | x :: y :: rest => encodeJson x ++ "," ++ encodeElems (y :: rest)

/-- Comma-separated encoding of object members. -/
def encodeFields : List (String × Json) → String
  | [] => ""
  | [(k, v)] => quoteString k ++ ":" ++ encodeJson v
  | (k, v) :: p :: rest =>
      quoteString k ++ ":" ++ encodeJson v ++ "," ++ encodeFields (p :: rest)

end

/-- Model of `json.NewEncoder(w).Encode(v)`: the document followed by a
newline. -/
def goEncode (v : Json) : String := encodeJson v ++ "\n"

/-! ## `httpx` response helpers (`httpx/render.go`) -/

/-- The JSON document `encoding/json` produces for `httpx.Response`
(struct tags: `data,omitempty`, `meta,omitempty`,
`request_id,omitempty`). -/
def responseJson (data meta : Option Json) (requestID : String) : Json :=
  Json.obj
    ((match data with | some d => [("data", d)] | none => []) ++
     (match meta with | some m => [("meta", m)] | none => []) ++
     (if requestID = "" then [] else [("request_id", Json.str requestID)]))

/-- The JSON document for `httpx.ErrorResponse` (tags: `error`,
`request_id,omitempty`; `ErrorDetail` has no `omitempty`). -/
def errorResponseJson (code message requestID : String) : Json :=
  Json.obj
    ([("error", Json.obj [("code", Json.str code), ("message", Json.str message)])] ++
     (if requestID = "" then [] else [("request_id", Json.str requestID)]))

/-- An HTTP response as the helpers produce it. -/
structure HttpResponse where
  status : Int
  contentType : String
  body : String
  deriving DecidableEq

/-- Model of `httpx.WriteJSON`: content type, status line, then the encoded body
(empty when `v` is nil).  Encoding the envelope structs over `Json`
payloads cannot fail, so the minimal-error fallback branch is
unreachable in the model. -/
def WriteJSON (status : Int) (v : Option Json) : HttpResponse :=
  { status := status
    contentType := "application/json"
    body := match v with | some j => goEncode j | none => "" }

/-- Model of `httpx.WriteData`: the success envelope with no meta; the request ID
comes from chi's request-ID middleware via the request context. -/
def WriteData (r : HttpRequest) (status : Int) (data : Option Json) : HttpResponse :=
  WriteJSON status (some (responseJson data none r.reqID))

/-- Model of `httpx.WriteDataWithMeta`. -/
def WriteDataWithMeta (r : HttpRequest) (status : Int) (data meta : Option Json) :
    HttpResponse :=
  WriteJSON status (some (responseJson data meta r.reqID))

/-- Model of `httpx.WriteError`. -/
def WriteError (r : HttpRequest) (status : Int) (code message : String) : HttpResponse :=
  WriteJSON status (some (errorResponseJson code message r.reqID))

/-! ## `postgres` package: `Open` (pgxpool calls as oracles)

`pgxpool.ParseConfig`, `pgxpool.NewWithConfig` and `(*Pool).Ping` are
library calls; a `PgWorld` fixes their outcomes so `Open`'s control flow
can be followed.  `Open`'s result is paired with the list of pools it
closed before returning. -/

/-- An opaque pool handle. -/
abbrev Pool : Type := Nat

/-- The pool configuration `Open` assembles: the parsed base config
(opaque) plus the settings it overrides. -/
structure PoolCfg where
  base : Nat
  MaxConns : Int
  MinConns : Int
  MaxConnLifetime : Int
  MaxConnIdleTime : Int
  HealthCheckPeriod : Int
  deriving DecidableEq, Repr

/-- Model of `postgres.Config`, durations in nanoseconds. -/
structure PgConfig where
  URL : String
  MaxConns : Int
  MinConns : Int
  MaxConnLifetime : Int
  MaxConnIdleTime : Int
  HealthCheckPeriod : Int
  deriving DecidableEq, Repr

/-- Outcomes of the pgx library calls `Open` makes. -/
structure PgWorld where
  parseConfig : String → Except String PoolCfg
  newPool : PoolCfg → Except String Pool
  ping : Pool → Option String

/-- The `if cfg.X > 0 { poolCfg.X = cfg.X }` block of `Open`. -/
def applyPoolSettings (cfg : PgConfig) (pc : PoolCfg) : PoolCfg :=
  let pc := if cfg.MaxConns > 0 then { pc with MaxConns := cfg.MaxConns } else pc
  let pc := if cfg.MinConns > 0 then { pc with MinConns := cfg.MinConns } else pc
  let pc := if cfg.MaxConnLifetime > 0 then { pc with MaxConnLifetime := cfg.MaxConnLifetime } else pc
  let pc := if cfg.MaxConnIdleTime > 0 then { pc with MaxConnIdleTime := cfg.MaxConnIdleTime } else pc
  let pc := if cfg.HealthCheckPeriod > 0 then { pc with HealthCheckPeriod := cfg.HealthCheckPeriod } else pc
  pc

/-- Model of `postgres.Open`: parse, apply settings, create the pool, ping;
wrap each failure with its context prefix; close the pool when the ping
fails.  The second component lists the pools closed before returning. -/
def Open (w : PgWorld) (cfg : PgConfig) : Except String Pool × List Pool :=
  match w.parseConfig cfg.URL with
  | .error e => (.error ("parsing postgres config: " ++ e), [])
  | .ok poolCfg =>
    let poolCfg := applyPoolSettings cfg poolCfg
    match w.newPool poolCfg with
    | .error e => (.error ("creating postgres pool: " ++ e), [])
    | .ok pool =>
      match w.ping pool with
      | some e => (.error ("pinging postgres: " ++ e), [pool])
      | none => (.ok pool, [])

/-! ## Spec-side envelope descriptions

The spec describes the two response envelopes textually; the following
definitions transcribe that description (members in order, comma
separated, omission rules as stated) so the bodies produced by the
`Write*` helpers can be compared against it. -/

/-- Comma-separated concatenation. -/
def joinComma : List String → String
  | [] => ""
  | [x] => x
  | x :: y :: rest => x ++ "," ++ joinComma (y :: rest)

/-- Spec-side: a JSON object of the listed pre-rendered members. -/
def specInnerObj (members : List String) : String :=
  "\x7b" ++ joinComma members ++ "\x7d"

/-- Spec-side: a JSON object body made of the listed pre-rendered
members, followed by the newline the encoder appends. -/
def specObjBody (members : List String) : String :=
  specInnerObj members ++ "\n"

/-- Spec-side: members of the success envelope — `data`, `meta` omitted
when absent, `request_id` omitted when empty. -/
def specSuccessMembers (data meta : Option Json) (requestID : String) : List String :=
  (match data with | some d => ["\"data\":" ++ encodeJson d] | none => []) ++
  (match meta with | some m => ["\"meta\":" ++ encodeJson m] | none => []) ++
  (if requestID = "" then [] else ["\"request_id\":" ++ quoteString requestID])

/-- Spec-side: members of the error envelope — an `error` object with
`code` and `message`, then `request_id` omitted when empty. -/
def specErrorMembers (code message requestID : String) : List String :=
  ["\"error\":" ++
     specInnerObj ["\"code\":" ++ quoteString code, "\"message\":" ++ quoteString message]] ++
  (if requestID = "" then [] else ["\"request_id\":" ++ quoteString requestID])

/-! ## Concrete fixtures used by witnesses -/

/-- A logger at Info level with a live writer. -/
def stdLog : GoLogger := { hasWriter := true, level := 1, fields := [] }

/-- A handler that always answers with the given status and byte
count. -/
def constHandler (status : Int) (bytes : Nat) : HttpHandler :=
  fun _ _ => (status, bytes)

/-- A sample request carrying a chi request ID. -/
def sampleReq : HttpRequest :=
  { method := "GET", path := "/items", remoteAddr := "127.0.0.1:9", userAgent := "ua"
    reqID := "req-1" }

/-- A health-check request. -/
def healthReq : HttpRequest :=
  { method := "GET", path := "/health", remoteAddr := "127.0.0.1:9", userAgent := "ua"
    reqID := "req-2" }

/-- Options skip-listing `/health`. -/
def healthSkipOpts : RequestLoggerOptions :=
  { SkipPaths := ["/health"], LogRequestBody := false, LogResponseBody := false }

/-- A sample environment: one value per supported type, one malformed
value, nothing else set. -/
def sampleEnv : Env := fun k =>
  if k = "S" then some "hello"
  else if k = "I" then some "42"
  else if k = "I32" then some "70000"
  else if k = "B" then some "true"
  else if k = "D" then some "5s"
  else if k = "BAD" then some "zzz"
  else if k = "EMPTY" then some ""
  else none

/-- A duration parser fixture standing in for `time.ParseDuration` on
the inputs the witnesses use. -/
def sampleParseDuration : String → Option Int := fun s =>
  if s = "5s" then some 5000000000 else none

/-- A parsed base pool configuration fixture. -/
def samplePoolCfg : PoolCfg :=
  { base := 0, MaxConns := 4, MinConns := 1, MaxConnLifetime := 10
    MaxConnIdleTime := 5, HealthCheckPeriod := 2 }

/-- A postgres configuration fixture that keeps the parsed defaults. -/
def samplePgConfig : PgConfig :=
  { URL := "postgres://u@h:5432/db", MaxConns := 0, MinConns := 0
    MaxConnLifetime := 0, MaxConnIdleTime := 0, HealthCheckPeriod := 0 }

/-- A world in which the pool opens but its validating ping fails. -/
def pgWorldPingFail : PgWorld :=
  { parseConfig := fun _ => .ok samplePoolCfg
    newPool := fun _ => .ok 7
    ping := fun _ => some "connection refused" }

/-- A world in which everything succeeds. -/
def pgWorldOk : PgWorld :=
  { parseConfig := fun _ => .ok samplePoolCfg
    newPool := fun _ => .ok 7
    ping := fun _ => none }

/-! ## Theorems -/

/-- C1: every typed getter (`GetEnv`, `GetEnvInt`, `GetEnvInt32`,
`GetEnvDuration`, `GetEnvBool`) returns the parsed value when the
variable is present (non-empty, as `os.Getenv` reports it) and parses
for the requested type, and returns exactly the caller-supplied default
when the variable is absent or its value is malformed; no error is
surfaced in either case (the getters are total). -/
theorem envGetters_parse_or_default (env : Env) (key : String) :
    (∀ d : String,
      (osGetenv env key ≠ "" → GetEnv env key d = osGetenv env key) ∧
      (osGetenv env key = "" → GetEnv env key d = d)) ∧
    (∀ (d n : Int), osGetenv env key ≠ "" → goAtoi (osGetenv env key) = some n →
      GetEnvInt env key d = n) ∧
    (∀ d : Int, (osGetenv env key = "" ∨ goAtoi (osGetenv env key) = none) →
      GetEnvInt env key d = d) ∧
    (∀ (d n : Int), osGetenv env key ≠ "" → goParseInt32 (osGetenv env key) = some n →
      GetEnvInt32 env key d = n) ∧
    (∀ d : Int, (osGetenv env key = "" ∨ goParseInt32 (osGetenv env key) = none) →
      GetEnvInt32 env key d = d) ∧
    (∀ (pd : String → Option Int) (d n : Int),
      osGetenv env key ≠ "" → pd (osGetenv env key) = some n →
      GetEnvDuration pd env key d = n) ∧
    (∀ (pd : String → Option Int) (d : Int),
      (osGetenv env key = "" ∨ pd (osGetenv env key) = none) →
      GetEnvDuration pd env key d = d) ∧
    (∀ (d b : Bool), osGetenv env key ≠ "" → goParseBool (osGetenv env key) = some b →
      GetEnvBool env key d = b) ∧
    (∀ d : Bool, (osGetenv env key = "" ∨ goParseBool (osGetenv env key) = none) →
      GetEnvBool env key d = d) := by
  refine ⟨fun d => ⟨?_, ?_⟩, ?_, ?_, ?_, ?_, ?_, ?_, ?_, ?_⟩
  · intro hne; simp [GetEnv, hne]
  · intro he; simp [GetEnv, he]
  · intro d n hne hp; simp [GetEnvInt, hne, hp]
  · intro d h
    rcases h with he | hp
    · simp [GetEnvInt, he]
    · by_cases hv : osGetenv env key = ""
      · simp [GetEnvInt, hv]
      · simp [GetEnvInt, hv, hp]
  · intro d n hne hp; simp [GetEnvInt32, hne, hp]
  · intro d h
    rcases h with he | hp
    · simp [GetEnvInt32, he]
    · by_cases hv : osGetenv env key = ""
      · simp [GetEnvInt32, hv]
      · simp [GetEnvInt32, hv, hp]
  · intro pd d n hne hp; simp [GetEnvDuration, hne, hp]
  · intro pd d h
    rcases h with he | hp
    · simp [GetEnvDuration, he]
    · by_cases hv : osGetenv env key = ""
      · simp [GetEnvDuration, hv]
      · simp [GetEnvDuration, hv, hp]
  · intro d b hne hp; simp [GetEnvBool, hne, hp]
  · intro d h
    rcases h with he | hp
    · simp [GetEnvBool, he]
    · by_cases hv : osGetenv env key = ""
      · simp [GetEnvBool, hv]
      · simp [GetEnvBool, hv, hp]

/-- Witness for C1 on `sampleEnv`: present well-formed values are
parsed, a malformed value and an unset variable fall back to the
default. -/
theorem envGetters_parse_or_default_witness :
    GetEnv sampleEnv "S" "dflt" = "hello" ∧
    GetEnv sampleEnv "MISSING" "dflt" = "dflt" ∧
    GetEnvInt sampleEnv "I" 7 = 42 ∧
    GetEnvInt sampleEnv "BAD" 7 = 7 ∧
    GetEnvInt32 sampleEnv "I32" 3 = 70000 ∧
    GetEnvInt32 sampleEnv "BAD" 3 = 3 ∧
    GetEnvDuration sampleParseDuration sampleEnv "D" 1 = 5000000000 ∧
    GetEnvDuration sampleParseDuration sampleEnv "BAD" 1 = 1 ∧
    GetEnvBool sampleEnv "B" false = true ∧
    GetEnvBool sampleEnv "MISSING" true = true := by
  refine ⟨?_, ?_, ?_, ?_, ?_, ?_, ?_, ?_, ?_, ?_⟩
  · exact ((envGetters_parse_or_default sampleEnv "S").1 "dflt").1 (by decide)
  · exact ((envGetters_parse_or_default sampleEnv "MISSING").1 "dflt").2 (by decide)
  · exact (envGetters_parse_or_default sampleEnv "I").2.1 7 42 (by decide) (by decide)
  · exact (envGetters_parse_or_default sampleEnv "BAD").2.2.1 7 (Or.inr (by decide))
  · exact (envGetters_parse_or_default sampleEnv "I32").2.2.2.1 3 70000 (by decide) (by decide)
  · exact (envGetters_parse_or_default sampleEnv "BAD").2.2.2.2.1 3 (Or.inr (by decide))
  · exact (envGetters_parse_or_default sampleEnv "D").2.2.2.2.2.1
      sampleParseDuration 1 5000000000 (by decide) (by decide)
  · exact (envGetters_parse_or_default sampleEnv "BAD").2.2.2.2.2.2.1
      sampleParseDuration 1 (Or.inr (by decide))
  · exact (envGetters_parse_or_default sampleEnv "B").2.2.2.2.2.2.2.1 false true
      (by decide) (by decide)
  · exact (envGetters_parse_or_default sampleEnv "MISSING").2.2.2.2.2.2.2.2 true
      (Or.inl (by decide))

/-- C10: a variable set to the empty string behaves exactly like an
unset one — every typed getter returns the caller-supplied default in
both cases — and `GetEnv` never returns the empty string when a
non-empty default is supplied. -/
theorem envGetters_empty_equals_absent (env : Env) (key : String) :
    ((env key = none ∨ env key = some "") →
      ∀ (pd : String → Option Int) (ds : String) (di : Int) (db : Bool),
        GetEnv env key ds = ds ∧ GetEnvInt env key di = di ∧
        GetEnvInt32 env key di = di ∧ GetEnvDuration pd env key di = di ∧
        GetEnvBool env key db = db) ∧
    (∀ ds : String, ds ≠ "" → GetEnv env key ds ≠ "") := by
  constructor
  · intro h pd ds di db
    have hv : osGetenv env key = "" := by
      rcases h with h | h <;> simp [osGetenv, h]
    exact ⟨by simp [GetEnv, hv], by simp [GetEnvInt, hv], by simp [GetEnvInt32, hv],
      by simp [GetEnvDuration, hv], by simp [GetEnvBool, hv]⟩
  · intro ds hds
    by_cases hv : osGetenv env key = ""
    · simp [GetEnv, hv, hds]
    · simp [GetEnv, hv]

/-- Witness for C10: a present-but-empty variable and an unset one both
yield the defaults, and the string getter's result is non-empty for a
non-empty default. -/
theorem envGetters_empty_equals_absent_witness :
    GetEnvInt sampleEnv "EMPTY" 9 = 9 ∧
    GetEnvInt sampleEnv "MISSING" 9 = 9 ∧
    GetEnvBool sampleEnv "EMPTY" true = true ∧
    GetEnv sampleEnv "EMPTY" "x" = "x" ∧
    GetEnv sampleEnv "EMPTY" "x" ≠ "" := by
  have he := envGetters_empty_equals_absent sampleEnv "EMPTY"
  have hm := envGetters_empty_equals_absent sampleEnv "MISSING"
  have h1 := he.1 (Or.inr (by decide)) sampleParseDuration "x" 9 true
  have h2 := hm.1 (Or.inl (by decide)) sampleParseDuration "x" 9 true
  exact ⟨h1.2.1, h2.2.1, h1.2.2.2.2, h1.1, he.2 "x" (by decide)⟩

/-- C6: `logger.From` returns the logger most recently attached with
`logger.With` (attachment shadows any earlier entry), and on a context
with no logger entry it returns `zerolog.Nop()` — a usable, disabled
logger that emits at no severity — rather than failing. -/
theorem from_with_roundtrip_and_nop (ctx : Context) (l : GoLogger) :
    logger.From (logger.With ctx l) = l ∧
    (ctxValue ctx CtxKey.loggerKey = none → logger.From ctx = zerologNop) ∧
    (∀ s : Severity, zerologNop.emits s = false) := by
  refine ⟨rfl, ?_, ?_⟩
  · intro h
    simp [logger.From, h]
  · intro s
    cases s <;> rfl

/-- Witness for C6: a logger stored then retrieved on a context that
also carries unrelated values, and retrieval from a logger-free context
yielding the no-op logger. -/
theorem from_with_roundtrip_and_nop_witness :
    logger.From (logger.With [(CtxKey.otherKey 0, CtxVal.otherVal 5)] stdLog) = stdLog ∧
    logger.From [(CtxKey.otherKey 0, CtxVal.otherVal 5)] = zerologNop ∧
    zerologNop.emits Severity.info = false := by
  have h := from_with_roundtrip_and_nop
    ([(CtxKey.otherKey 0, CtxVal.otherVal 5)] : Context) stdLog
  exact ⟨h.1, h.2.1 (by decide), h.2.2 Severity.info⟩

/-- C5: the unary logging interceptor's severity is chosen by
`eventForCode` from the call's resulting status code, and the
classification is: `OK` to info; `Canceled`, `DeadlineExceeded` and the
client-fault codes (`InvalidArgument`, `NotFound`, `AlreadyExists`,
`PermissionDenied`, `Unauthenticated`, `FailedPrecondition`,
`ResourceExhausted`, `Aborted`, `OutOfRange`) to warning; every other
code to error. -/
theorem interceptor_severity_for_code (log : GoLogger)
    (handler : Context → UnaryOutcome) (ctx : Context) (m rid : String) :
    (UnaryLoggingInterceptor log handler ctx m rid).event =
      eventForCode log (statusCode (handler ctx).err) ∧
    ∀ code : GrpcCode,
      (eventForCode log code).sev =
        (if code = .ok then Severity.info
         else if code ∈ ([.canceled, .deadlineExceeded, .invalidArgument, .notFound,
             .alreadyExists, .permissionDenied, .unauthenticated, .failedPrecondition,
             .resourceExhausted, .aborted, .outOfRange] : List GrpcCode) then Severity.warn
         else Severity.error) := by
  refine ⟨rfl, ?_⟩
  intro code
  cases code <;> rfl

/-- C3: `NewServer` fails with the configuration error exactly when the
supplied `Options.Logger` is the zero value, and succeeds with a
constructed server for every non-zero logger. -/
theorem newServer_requires_logger (opts : Options) :
    (opts.Logger.isZero = true →
      NewServer opts =
        Except.error "creating grpc server: Options.Logger must be set (use logger.New(...) or zerolog.Nop())") ∧
    (opts.Logger.isZero = false → ∃ s : GrpcServer, NewServer opts = Except.ok s) := by
  constructor
  · intro h
    simp [NewServer, h]
  · intro h
    simp only [NewServer, h, Bool.false_eq_true, if_false]
    exact ⟨_, rfl⟩

/-- Witness for C3: the zero-value logger is rejected, `zerolog.Nop()`
(a set, non-zero logger) is accepted. -/
theorem newServer_requires_logger_witness :
    NewServer { Logger := zeroLogger, EnableHealth := false, EnableReflection := false
                EnableOTel := false } =
      Except.error "creating grpc server: Options.Logger must be set (use logger.New(...) or zerolog.Nop())" ∧
    ∃ s : GrpcServer,
      NewServer { Logger := zerologNop, EnableHealth := false, EnableReflection := false
                  EnableOTel := false } = Except.ok s := by
  constructor
  · exact (newServer_requires_logger _).1 (by decide)
  · exact (newServer_requires_logger _).2 (by decide)

/-- C9: `RegisterHealth` sets the empty service name to `SERVING` on the
health server it registers, and `NewServer` with `EnableHealth` set
returns a server whose registered health service already reports
`SERVING` for the empty name. -/
theorem registerHealth_serving (s : GrpcServer) (opts : Options) :
    ((RegisterHealth s).2.statusFor "" = some .serving ∧
      (RegisterHealth s).1.health = some (RegisterHealth s).2) ∧
    (opts.EnableHealth = true → opts.Logger.isZero = false →
      ∀ srv : GrpcServer, NewServer opts = Except.ok srv →
        ∃ hs : HealthServer, srv.health = some hs ∧ hs.statusFor "" = some .serving) := by
  constructor
  · exact ⟨rfl, rfl⟩
  · intro hh hl srv hsrv
    simp only [NewServer, hl, Bool.false_eq_true, if_false, hh, if_true,
      Except.ok.injEq] at hsrv
    by_cases hr : opts.EnableReflection = true
    · simp only [hr, if_true] at hsrv
      subst hsrv
      exact ⟨healthNewServer, rfl, rfl⟩
    · simp only [hr, if_false] at hsrv
      subst hsrv
      exact ⟨healthNewServer, rfl, rfl⟩

/-- Witness for C9: a server built with `EnableHealth` on reports
`SERVING` for the empty service name. -/
theorem registerHealth_serving_witness :
    ∃ hs : HealthServer,
      ({ interceptorLogger := zerologNop, otelEnabled := false
         health := some healthNewServer, reflectionRegistered := false } : GrpcServer).health =
        some hs ∧
      hs.statusFor "" = some .serving := by
  exact (registerHealth_serving
    { interceptorLogger := zerologNop, otelEnabled := false, health := none
      reflectionRegistered := false }
    { Logger := zerologNop, EnableHealth := true, EnableReflection := false
      EnableOTel := false }).2 rfl (by decide) _ rfl

/-- The completion step of both request-logging middlewares: on a
logger whose level admits Info (and hence Warn and Error), exactly one
record is emitted and its severity follows the status-code policy. -/
theorem completionRecords_sev (reqLog : GoLogger) (s : Int) (b : Nat)
    (h : reqLog.level ≤ 1) :
    (completionRecords reqLog s b).map LogRecord.sev =
      [if s ≥ 500 then Severity.error
       else if 400 ≤ s ∧ s ≤ 499 then Severity.warn
       else Severity.info] := by
  have hsev : ∀ sev : Severity, reqLog.emits sev = true := by
    intro sev
    cases sev <;> simp [GoLogger.emits, Severity.level] <;> omega
  unfold completionRecords
  simp only [hsev, if_true, List.map]
  unfold statusSeverity
  by_cases h5 : s ≥ 500
  · simp [h5]
  · by_cases h4 : s ≥ 400
    · have hc : 400 ≤ s ∧ s ≤ 499 := ⟨h4, by omega⟩
      simp [h5, h4, hc]
    · have hc : ¬(400 ≤ s ∧ s ≤ 499) := fun hc => h4 hc.1
      simp [h5, h4, hc]

/-- A non-skipped request through either middleware yields exactly one
completion record. -/
theorem completionRecords_one (reqLog : GoLogger) (s : Int) (b : Nat)
    (h : reqLog.level ≤ 1) :
    ∃ rec : LogRecord, completionRecords reqLog s b = [rec] := by
  have hm := completionRecords_sev reqLog s b h
  cases hrec : completionRecords reqLog s b with
  | nil => rw [hrec] at hm; simp at hm
  | cons a t =>
    cases t with
    | nil => exact ⟨a, rfl⟩
    | cons b' t' => rw [hrec] at hm; simp at hm

/-- C4: for a logger admitting Info severity, each request through
`RequestLogger`, and through `RequestLoggerWithOpts` on a non-skipped
path, produces a single completion log line whose severity is chosen
from the response status: at least 500 gives error, 400 through 499
gives warning, anything else gives info. -/
theorem requestLogger_severity_selection (log : GoLogger) (next : HttpHandler)
    (r : HttpRequest) (ctx : Context) (opts : RequestLoggerOptions)
    (hlvl : log.level ≤ 1) (hskip : r.path ∉ opts.SkipPaths) :
    ((RequestLogger log next r ctx).records.map LogRecord.sev =
      [if (RequestLogger log next r ctx).status ≥ 500 then Severity.error
       else if 400 ≤ (RequestLogger log next r ctx).status ∧
           (RequestLogger log next r ctx).status ≤ 499 then Severity.warn
       else Severity.info]) ∧
    ((RequestLoggerWithOpts log opts next r ctx).records.map LogRecord.sev =
      [if (RequestLoggerWithOpts log opts next r ctx).status ≥ 500 then Severity.error
       else if 400 ≤ (RequestLoggerWithOpts log opts next r ctx).status ∧
           (RequestLoggerWithOpts log opts next r ctx).status ≤ 499 then Severity.warn
       else Severity.info]) := by
  have hc : opts.SkipPaths.contains r.path = false := by simpa using hskip
  constructor
  · unfold RequestLogger
    exact completionRecords_sev _ _ _ hlvl
  · unfold RequestLoggerWithOpts
    rw [hc]
    simp only [Bool.false_eq_true, if_false]
    exact completionRecords_sev _ _ _ hlvl

/-- Witness for C4: statuses 200, 404 and 500 select info, warning and
error severity for the single completion line, in both middlewares. -/
theorem requestLogger_severity_selection_witness :
    (RequestLogger stdLog (constHandler 200 3) sampleReq []).records.map LogRecord.sev =
      [Severity.info] ∧
    (RequestLogger stdLog (constHandler 404 3) sampleReq []).records.map LogRecord.sev =
      [Severity.warn] ∧
    (RequestLogger stdLog (constHandler 500 3) sampleReq []).records.map LogRecord.sev =
      [Severity.error] ∧
    (RequestLoggerWithOpts stdLog healthSkipOpts (constHandler 404 3) sampleReq
        []).records.map LogRecord.sev = [Severity.warn] := by
  have h200 := (requestLogger_severity_selection stdLog (constHandler 200 3) sampleReq []
    healthSkipOpts (by decide) (by decide)).1
  have h404 := requestLogger_severity_selection stdLog (constHandler 404 3) sampleReq []
    healthSkipOpts (by decide) (by decide)
  have h500 := (requestLogger_severity_selection stdLog (constHandler 500 3) sampleReq []
    healthSkipOpts (by decide) (by decide)).1
  have e200 : (RequestLogger stdLog (constHandler 200 3) sampleReq ([] : Context)).status = 200 := rfl
  have e404 : (RequestLogger stdLog (constHandler 404 3) sampleReq ([] : Context)).status = 404 := rfl
  have e404o : (RequestLoggerWithOpts stdLog healthSkipOpts (constHandler 404 3) sampleReq
      ([] : Context)).status = 404 := rfl
  have e500 : (RequestLogger stdLog (constHandler 500 3) sampleReq ([] : Context)).status = 500 := rfl
  rw [e200] at h200
  rw [e404] at h404
  rw [e404o] at h404
  rw [e500] at h500
  norm_num at h200 h404 h500
  exact ⟨h200, h404.1, h500, h404.2⟩

/-- C7: a request whose path is skip-listed passes through
`RequestLoggerWithOpts` untouched — the handler runs on the original
context (no logger attached), the middleware emits nothing, and the
handler's response is returned as-is; a request on any other path gets
exactly one completion log line (for a logger admitting Info). -/
theorem requestLoggerWithOpts_skip_paths (log : GoLogger)
    (opts : RequestLoggerOptions) (next : HttpHandler) (r : HttpRequest)
    (ctx : Context) :
    (r.path ∈ opts.SkipPaths →
      RequestLoggerWithOpts log opts next r ctx =
        { status := (next r ctx).1, bytes := (next r ctx).2
          records := [], handlerCtx := ctx }) ∧
    (r.path ∉ opts.SkipPaths → log.level ≤ 1 →
      ∃ rec : LogRecord,
        (RequestLoggerWithOpts log opts next r ctx).records = [rec]) := by
  constructor
  · intro hmem
    have hc : opts.SkipPaths.contains r.path = true := by simpa using hmem
    unfold RequestLoggerWithOpts
    rw [hc]
    simp
  · intro hskip hlvl
    have hc : opts.SkipPaths.contains r.path = false := by simpa using hskip
    unfold RequestLoggerWithOpts
    rw [hc]
    simp only [Bool.false_eq_true, if_false]
    exact completionRecords_one _ _ _ hlvl

/-- Witness for C7: the skip-listed `/health` request is passed through
with no records and an unchanged context, while `/items` yields one
record. -/
theorem requestLoggerWithOpts_skip_paths_witness :
    RequestLoggerWithOpts stdLog healthSkipOpts (constHandler 200 3) healthReq [] =
      { status := 200, bytes := 3, records := [], handlerCtx := [] } ∧
    ∃ rec : LogRecord,
      (RequestLoggerWithOpts stdLog healthSkipOpts (constHandler 200 3) sampleReq
        []).records = [rec] := by
  constructor
  · exact (requestLoggerWithOpts_skip_paths stdLog healthSkipOpts (constHandler 200 3)
      healthReq []).1 (by decide)
  · exact (requestLoggerWithOpts_skip_paths stdLog healthSkipOpts (constHandler 200 3)
      sampleReq []).2 (by decide) (by decide)

/-- Object members are encoded in order, comma separated. -/
theorem encodeFields_joinComma (fs : List (String × Json)) :
    encodeFields fs =
      joinComma (fs.map (fun p => quoteString p.1 ++ ":" ++ encodeJson p.2)) := by
  induction fs with
  | nil => rfl
  | cons p rest ih =>
    cases rest with
    | nil => rfl
    | cons q rest' =>
      show quoteString p.1 ++ ":" ++ encodeJson p.2 ++ "," ++ encodeFields (q :: rest') = _
      rw [ih]
      simp [joinComma]

/-- The encoding of an object is the spec-side rendering of its
members. -/
theorem encodeJson_obj_spec (fs : List (String × Json)) :
    encodeJson (Json.obj fs) =
      specInnerObj (fs.map (fun p => quoteString p.1 ++ ":" ++ encodeJson p.2)) := by
  show "\x7b" ++ encodeFields fs ++ "\x7d" = _
  rw [encodeFields_joinComma]
  rfl

/-- The body written for `httpx.Response` is the spec-side success
envelope. -/
theorem responseJson_body (data meta : Option Json) (rid : String) :
    goEncode (responseJson data meta rid) = specObjBody (specSuccessMembers data meta rid) := by
  unfold goEncode responseJson specObjBody specSuccessMembers
  rw [encodeJson_obj_spec]
  cases data <;> cases meta <;> by_cases h : rid = "" <;>
    simp [h, specInnerObj,
      show (quoteString "data" ++ ":" : String) = "\"data\":" from rfl,
      show (quoteString "meta" ++ ":" : String) = "\"meta\":" from rfl,
      show (quoteString "request_id" ++ ":" : String) = "\"request_id\":" from rfl,
      show ∀ s : String, encodeJson (Json.str s) = quoteString s from fun _ => rfl]

/-- The body written for `httpx.ErrorResponse` is the spec-side error
envelope. -/
theorem errorResponseJson_body (code message rid : String) :
    goEncode (errorResponseJson code message rid) =
      specObjBody (specErrorMembers code message rid) := by
  unfold goEncode errorResponseJson specObjBody specErrorMembers
  rw [encodeJson_obj_spec]
  by_cases h : rid = "" <;>
    simp [h, specInnerObj,
      show (quoteString "error" ++ ":" : String) = "\"error\":" from rfl,
      show (quoteString "code" ++ ":" : String) = "\"code\":" from rfl,
      show (quoteString "message" ++ ":" : String) = "\"message\":" from rfl,
      show (quoteString "request_id" ++ ":" : String) = "\"request_id\":" from rfl,
      show ∀ s : String, encodeJson (Json.str s) = quoteString s from fun _ => rfl,
      encodeJson_obj_spec, joinComma]

/-- C2 counterexample: with a nil payload the success envelope carries
no `data` member at all (`data,omitempty`), and the body `WriteData`
produces for `\x7b"id":"1"\x7d` is the envelope plus a trailing
newline, not the bare envelope. -/
theorem writeData_envelope_counterexample :
    (WriteData { method := "GET", path := "/items", remoteAddr := "127.0.0.1:9"
                 userAgent := "ua", reqID := "" } 200 none).body = "\x7b\x7d\n" ∧
    (WriteData { method := "GET", path := "/items", remoteAddr := "127.0.0.1:9"
                 userAgent := "ua", reqID := "abc" } 200
        (some (Json.obj [("id", Json.str "1")]))).body ≠
      "\x7b\"data\":\x7b\"id\":\"1\"\x7d,\"request_id\":\"abc\"\x7d" :=
  ⟨rfl, by decide⟩

/-- C2 (amended): `WriteData`, `WriteDataWithMeta` and `WriteError`
write `application/json` responses whose bodies are the spec's two
envelopes followed by the encoder's newline, with `data` (like `meta`)
omitted when the payload interface is nil and `request_id` omitted when
empty; in particular `WriteData(200, \x7b"id":"1"\x7d)` with request ID
`abc` produces `\x7b"data":\x7b"id":"1"\x7d,"request_id":"abc"\x7d`
plus the newline. -/
theorem write_helpers_envelope_bodies (r : HttpRequest) (status : Int)
    (data meta : Option Json) (code message : String) :
    WriteData r status data =
      { status := status, contentType := "application/json"
        body := specObjBody (specSuccessMembers data none r.reqID) } ∧
    WriteDataWithMeta r status data meta =
      { status := status, contentType := "application/json"
        body := specObjBody (specSuccessMembers data meta r.reqID) } ∧
    WriteError r status code message =
      { status := status, contentType := "application/json"
        body := specObjBody (specErrorMembers code message r.reqID) } ∧
    (WriteData { method := "GET", path := "/items", remoteAddr := "127.0.0.1:9"
                 userAgent := "ua", reqID := "abc" } 200
        (some (Json.obj [("id", Json.str "1")]))).body =
      "\x7b\"data\":\x7b\"id\":\"1\"\x7d,\"request_id\":\"abc\"\x7d" ++ "\n" := by
  refine ⟨?_, ?_, ?_, rfl⟩
  · show ({ status := status, contentType := "application/json"
            body := goEncode (responseJson data none r.reqID) } : HttpResponse) = _
    rw [responseJson_body]
  · show ({ status := status, contentType := "application/json"
            body := goEncode (responseJson data meta r.reqID) } : HttpResponse) = _
    rw [responseJson_body]
  · show ({ status := status, contentType := "application/json"
            body := goEncode (errorResponseJson code message r.reqID) } : HttpResponse) = _
    rw [errorResponseJson_body]

/-- C8: every error `Open` returns is wrapped with one of the three
context prefixes; a pool that was created but failed its validating
ping is closed before the error is returned; a successful `Open` closes
nothing; and the result is exactly one of pool or error. -/
theorem pg_open_wraps_and_cleans (w : PgWorld) (cfg : PgConfig) :
    (∀ e : String, (Open w cfg).1 = .error e →
      (∃ rest, e = "parsing postgres config: " ++ rest) ∨
      (∃ rest, e = "creating postgres pool: " ++ rest) ∨
      (∃ rest, e = "pinging postgres: " ++ rest)) ∧
    (∀ (pc : PoolCfg) (pool : Pool) (e : String),
      w.parseConfig cfg.URL = .ok pc →
      w.newPool (applyPoolSettings cfg pc) = .ok pool →
      w.ping pool = some e →
      Open w cfg = (.error ("pinging postgres: " ++ e), [pool])) ∧
    (∀ pool : Pool, (Open w cfg).1 = .ok pool → (Open w cfg).2 = []) ∧
    ((∃ pool : Pool, (Open w cfg).1 = .ok pool) ∨
      (∃ e : String, (Open w cfg).1 = .error e)) := by
  cases hparse : w.parseConfig cfg.URL with
  | error e0 =>
    refine ⟨?_, ?_, ?_, ?_⟩
    · intro e he
      simp only [Open, hparse, Except.error.injEq] at he
      exact Or.inl ⟨e0, he.symm⟩
    · intro pc pool e hpc
      exact absurd hpc (by simp)
    · intro pool h
      simp [Open, hparse] at h
    · exact Or.inr ⟨"parsing postgres config: " ++ e0, by simp [Open, hparse]⟩
  | ok pc =>
    cases hnew : w.newPool (applyPoolSettings cfg pc) with
    | error e1 =>
      refine ⟨?_, ?_, ?_, ?_⟩
      · intro e he
        simp only [Open, hparse, hnew, Except.error.injEq] at he
        exact Or.inr (Or.inl ⟨e1, he.symm⟩)
      · intro pc' pool e hpc hnew'
        injection hpc with h1
        subst h1
        rw [hnew] at hnew'
        exact absurd hnew' (by simp)
      · intro pool h
        simp [Open, hparse, hnew] at h
      · exact Or.inr ⟨"creating postgres pool: " ++ e1, by simp [Open, hparse, hnew]⟩
    | ok pool =>
      cases hping : w.ping pool with
      | some e2 =>
        refine ⟨?_, ?_, ?_, ?_⟩
        · intro e he
          simp only [Open, hparse, hnew, hping, Except.error.injEq] at he
          exact Or.inr (Or.inr ⟨e2, he.symm⟩)
        · intro pc' pool' e hpc hnew' hping'
          injection hpc with h1
          subst h1
          rw [hnew] at hnew'
          injection hnew' with h2
          subst h2
          rw [hping] at hping'
          injection hping' with h3
          subst h3
          simp [Open, hparse, hnew, hping]
        · intro pool' h
          simp [Open, hparse, hnew, hping] at h
        · exact Or.inr ⟨"pinging postgres: " ++ e2, by simp [Open, hparse, hnew, hping]⟩
      | none =>
        refine ⟨?_, ?_, ?_, ?_⟩
        · intro e he
          simp [Open, hparse, hnew, hping] at he
        · intro pc' pool' e hpc hnew' hping'
          injection hpc with h1
          subst h1
          rw [hnew] at hnew'
          injection hnew' with h2
          subst h2
          rw [hping] at hping'
          exact absurd hping' (by simp)
        · intro pool' h
          simp [Open, hparse, hnew, hping]
        · exact Or.inl ⟨pool, by simp [Open, hparse, hnew, hping]⟩

/-- Witness for C8: a failed ping yields the wrapped error with the
created pool closed, and an all-success world yields a pool. -/
theorem pg_open_wraps_and_cleans_witness :
    Open pgWorldPingFail samplePgConfig =
      (.error ("pinging postgres: " ++ "connection refused"), [7]) ∧
    ((∃ pool : Pool, (Open pgWorldOk samplePgConfig).1 = .ok pool) ∨
      (∃ e : String, (Open pgWorldOk samplePgConfig).1 = .error e)) := by
  constructor
  · exact (pg_open_wraps_and_cleans pgWorldPingFail samplePgConfig).2.1
      samplePoolCfg 7 "connection refused" rfl rfl rfl
  · exact (pg_open_wraps_and_cleans pgWorldOk samplePgConfig).2.2.2

end CommonGo
